import Mathlib

/-!
Verification of the InstantAI retrieval-augmented knowledge engine.

The repository ships the React client and deployment files; the backend
components (Chunker, Knowledge Base Registry, API Key Manager, Retrieval
Engine, Chat Session and Admission Control) are specified in spec.md and are
embedded here as executable Lean definitions.  Definitions taken from client
source files under src/ are marked with their origin; definitions for the
backend are marked as modelled from the spec.
-/

namespace InstantAI

/-! ## Retrieval Engine (spec section 4.5) -/

/-- Modelled from the spec: one result row of the Vector Index Adapter
query, carrying the chunk metadata used for ranking (spec sections 3
and 4.3).  The score is the similarity measure; it is modelled as a
rational number, ordered exactly as the similarity scores are. -/
structure QueryResult where
  chunk_id : String
  document_id : String
  sequence_index : Nat
  text : String
  score : ℚ
deriving DecidableEq, Repr

/-- Ranking key of a query result: descending score, ties broken by
ascending document id, then ascending sequence index (spec section 4.5). -/
def rankKey (r : QueryResult) : ℚ ×ₗ (String ×ₗ ℕ) :=
  toLex (-r.score, toLex (r.document_id, r.sequence_index))

/-- The ranking order used when sorting retrieval results. -/
def rankLE (a b : QueryResult) : Prop :=
  rankKey a ≤ rankKey b

instance : DecidableRel rankLE :=
  fun a b => inferInstanceAs (Decidable (rankKey a ≤ rankKey b))

instance : IsTotal QueryResult rankLE :=
  ⟨fun a b => le_total (rankKey a) (rankKey b)⟩

instance : IsTrans QueryResult rankLE :=
  ⟨fun _ _ _ h1 h2 => le_trans h1 h2⟩

/-- Modelled from the spec: the Retrieval Engine (spec section 4.5).  The
embedding of the query text and the Vector Index Adapter query are external
collaborators; they are represented by the list of index query results.
Results scoring below the similarity threshold are discarded, the rest are
sorted by the ranking order and truncated to the chunk limit. -/
def retrieve (indexResults : List QueryResult) (similarity_threshold : ℚ)
    (max_chunks : Nat) : List QueryResult :=
  ((indexResults.filter fun r => similarity_threshold ≤ r.score).insertionSort
    rankLE).take max_chunks

/-- The ranking order spelled out on the record fields. -/
theorem rankLE_iff (a b : QueryResult) :
    rankLE a b ↔
      b.score < a.score ∨
        (a.score = b.score ∧
          (a.document_id < b.document_id ∨
            (a.document_id = b.document_id ∧
              a.sequence_index ≤ b.sequence_index))) := by
  simp only [rankLE, rankKey, Prod.Lex.le_iff, neg_lt_neg_iff, neg_inj]

/-- C1: for every knowledge base, query text, similarity threshold and chunk
limit, retrieve returns exactly the index-query results whose score reaches
the threshold, sorted descending by score with ties broken by ascending
(document id, sequence index), truncated to at most the chunk limit. -/
theorem retrieve_spec (indexResults : List QueryResult)
    (similarity_threshold : ℚ) (max_chunks : Nat) :
    ∃ L : List QueryResult,
      L.Perm (indexResults.filter fun r => similarity_threshold ≤ r.score) ∧
      L.Sorted rankLE ∧
      retrieve indexResults similarity_threshold max_chunks = L.take max_chunks ∧
      (retrieve indexResults similarity_threshold max_chunks).length ≤ max_chunks ∧
      ∀ a b, rankLE a b ↔
        b.score < a.score ∨
          (a.score = b.score ∧
            (a.document_id < b.document_id ∨
              (a.document_id = b.document_id ∧
                a.sequence_index ≤ b.sequence_index))) := by
  refine ⟨(indexResults.filter fun r => similarity_threshold ≤ r.score).insertionSort rankLE,
    List.perm_insertionSort rankLE _, List.sorted_insertionSort rankLE _, ?_, ?_, rankLE_iff⟩
  · rfl
  · simp only [retrieve]
    exact List.length_take_le _ _

/-- C8: when no index result reaches the similarity threshold, retrieve
returns the empty sequence (it is a total function, so no error is
possible). -/
theorem retrieve_no_result_above_threshold (indexResults : List QueryResult)
    (similarity_threshold : ℚ) (max_chunks : Nat)
    (h : ∀ r ∈ indexResults, r.score < similarity_threshold) :
    retrieve indexResults similarity_threshold max_chunks = [] := by
  have hfilter : indexResults.filter
      (fun r => decide (similarity_threshold ≤ r.score)) = [] := by
    rw [List.filter_eq_nil_iff]
    intro r hr
    simpa using not_le.mpr (h r hr)
  simp [retrieve, hfilter]

/-- A concrete result row used to instantiate C8: cosine similarity never
exceeds 1, while the threshold 1.1 does. -/
def c8Result : QueryResult :=
  ⟨"chunk-1", "doc-1", 0, "vacation policy text", 1⟩

/-- Witness for C8: a retrieval with threshold 11/10 (that is, 1.1, above
any attainable cosine score) over an index whose only result has the maximal
cosine score 1 returns the empty sequence. -/
theorem retrieve_no_result_above_threshold_witness :
    (∀ r ∈ [c8Result], r.score < mkRat 11 10) ∧
      retrieve [c8Result] (mkRat 11 10) 3 = [] :=
  ⟨by decide, retrieve_no_result_above_threshold [c8Result] (mkRat 11 10) 3 (by decide)⟩

/-! ## Chunker (spec section 4.1) -/

/-- Modelled from the spec: the Chunker (spec section 4.1).  Splitting is
deterministic; windows advance by the stride chunk_size - chunk_overlap; the
final window may be shorter than chunk_size and is still emitted; empty
input yields the empty sequence.  The guard on chunk_overlap < chunk_size
reflects the precondition (violating it is a configuration error). -/
def chunk (chunk_size chunk_overlap : Nat) (text : List Char) :
    List (List Char) :=
  if text.length = 0 then []
  else if _h1 : text.length ≤ chunk_size then [text]
  else if _h2 : chunk_overlap < chunk_size then
    text.take chunk_size ::
      chunk chunk_size chunk_overlap (text.drop (chunk_size - chunk_overlap))
  else [text]
termination_by text.length
decreasing_by
  simp only [List.length_drop]
  omega

/-- Reassembly of a chunk sequence: the first window entire, every later
window with its leading chunk_overlap characters removed. -/
def reassemble (chunk_overlap : Nat) : List (List Char) → List Char
  | [] => []
  | c :: rest => c ++ (rest.map fun d => d.drop chunk_overlap).flatten

/-- Dropping the overlap from every window and concatenating yields the
source text with its first chunk_overlap characters removed. -/
theorem chunk_map_drop_flatten (chunk_size chunk_overlap : Nat)
    (h : chunk_overlap < chunk_size) (text : List Char) :
    ((chunk chunk_size chunk_overlap text).map fun d =>
        d.drop chunk_overlap).flatten = text.drop chunk_overlap := by
  induction text using chunk.induct chunk_size chunk_overlap with
  | case1 text h0 =>
    rw [List.length_eq_zero] at h0
    subst h0
    simp [chunk]
  | case2 text h0 h1 =>
    rw [chunk]
    simp [h0, h1]
  | case3 text h0 h1 h2 ih =>
    rw [chunk]
    simp only [h0, if_false, h1, dif_neg, not_false_iff, h2, dif_pos,
      List.map_cons, List.flatten_cons, ih]
    rw [List.drop_take, List.drop_drop,
      show chunk_size - chunk_overlap + chunk_overlap =
        chunk_overlap + (chunk_size - chunk_overlap) from Nat.add_comm _ _,
      ← List.drop_drop]
    exact List.take_append_drop _ _
  | case4 text h0 h1 h2 =>
    exact absurd h h2

/-- Overlap-removing reassembly of the chunks reconstructs the text. -/
theorem reassemble_chunk (chunk_size chunk_overlap : Nat)
    (h : chunk_overlap < chunk_size) (text : List Char) :
    reassemble chunk_overlap (chunk chunk_size chunk_overlap text) = text := by
  rw [chunk]
  by_cases h0 : text.length = 0
  · rw [List.length_eq_zero] at h0
    subst h0
    simp [reassemble]
  · by_cases h1 : text.length ≤ chunk_size
    · simp [h0, h1, reassemble]
    · simp only [h0, if_false, h1, dif_neg, not_false_iff, h, dif_pos, reassemble]
      rw [chunk_map_drop_flatten chunk_size chunk_overlap h]
      rw [List.drop_drop]
      rw [show chunk_size - chunk_overlap + chunk_overlap = chunk_size from by omega]
      exact List.take_append_drop _ _

/-- The number of windows, for text longer than the overlap: a ceiling
division by the stride, in natural-number form. -/
theorem chunk_length (chunk_size chunk_overlap : Nat)
    (h : chunk_overlap < chunk_size) (text : List Char)
    (hlen : chunk_overlap < text.length) :
    (chunk chunk_size chunk_overlap text).length =
      (text.length - chunk_overlap + (chunk_size - chunk_overlap) - 1) /
        (chunk_size - chunk_overlap) := by
  induction text using chunk.induct chunk_size chunk_overlap with
  | case1 text h0 => omega
  | case2 text h0 h1 =>
    rw [chunk]
    simp only [h0, if_false, h1, dif_pos, List.length_singleton]
    rw [show text.length - chunk_overlap + (chunk_size - chunk_overlap) - 1 =
      (text.length - chunk_overlap - 1) + (chunk_size - chunk_overlap) from by omega]
    rw [Nat.add_div_right _ (by omega), Nat.div_eq_of_lt (by omega)]
  | case3 text h0 h1 h2 ih =>
    rw [chunk]
    simp only [h0, if_false, h1, dif_neg, not_false_iff, h2, dif_pos,
      List.length_cons]
    rw [ih (by simp only [List.length_drop]; omega)]
    simp only [List.length_drop]
    rw [show text.length - chunk_overlap + (chunk_size - chunk_overlap) - 1 =
      (text.length - (chunk_size - chunk_overlap) - chunk_overlap +
        (chunk_size - chunk_overlap) - 1) + (chunk_size - chunk_overlap) from by omega]
    rw [Nat.add_div_right _ (by omega)]
  | case4 text h0 h1 h2 =>
    exact absurd h h2

/-- Natural ceiling division agrees with the rational ceiling. -/
theorem nat_ceilDiv_eq_rat_ceil (a b : Nat) (hb : 0 < b) :
    (((a + b - 1) / b : Nat) : ℤ) = ⌈(a : ℚ) / (b : ℚ)⌉ := by
  have hq : (0 : ℚ) < (b : ℚ) := by exact_mod_cast hb
  have hmod := Nat.div_add_mod (a + b - 1) b
  have hmlt : (a + b - 1) % b < b := Nat.mod_lt _ hb
  have hub : a ≤ b * ((a + b - 1) / b) := by omega
  have hlb : b * ((a + b - 1) / b) < a + b := by omega
  have hubQ : (a : ℚ) ≤ (b : ℚ) * (((a + b - 1) / b : Nat) : ℚ) := by
    exact_mod_cast hub
  have hlbQ : (b : ℚ) * (((a + b - 1) / b : Nat) : ℚ) < (a : ℚ) + (b : ℚ) := by
    exact_mod_cast hlb
  symm
  rw [Int.ceil_eq_iff]
  constructor
  · rw [lt_div_iff₀ hq, Int.cast_natCast]
    nlinarith [hlbQ]
  · rw [div_le_iff₀ hq, Int.cast_natCast]
    nlinarith [hubQ]

/-- C2 counterexample: for the one-character text and the valid
configuration chunk_size 4, chunk_overlap 2 the chunker emits one window,
while the claimed count formula ceil((len - overlap)/(size - overlap))
evaluates to ceil(-1/2) = 0. -/
theorem chunk_count_formula_fails_on_short_text :
    ¬ (((chunk 4 2 [ 'a' ]).length : ℤ) =
        ⌈((([ 'a' ] : List Char).length : ℚ) - 2) / ((4 : ℚ) - 2)⌉) := by
  have hc : chunk 4 2 [ 'a' ] = [[ 'a' ]] := by
    rw [chunk]
    norm_num
  have hceil : ⌈((([ 'a' ] : List Char).length : ℚ) - 2) / ((4 : ℚ) - 2)⌉ = 0 := by
    rw [Int.ceil_eq_iff]
    constructor <;> norm_num
  rw [hc, hceil]
  norm_num

/-- C2 (amended): for every valid configuration chunk_overlap < chunk_size
and every text longer than the overlap, the window sequence advances by the
stride, reassembles to the text exactly once overlaps are removed, and its
length is ceil((len - overlap)/(size - overlap)); the original claim
required only len > 0, and fails for 0 < len <= overlap. -/
theorem chunk_reconstruction_and_count (chunk_size chunk_overlap : Nat)
    (text : List Char) (hcfg : chunk_overlap < chunk_size)
    (hlen : chunk_overlap < text.length) :
    reassemble chunk_overlap (chunk chunk_size chunk_overlap text) = text ∧
      ((chunk chunk_size chunk_overlap text).length : ℤ) =
        ⌈((text.length : ℚ) - (chunk_overlap : ℚ)) /
          ((chunk_size : ℚ) - (chunk_overlap : ℚ))⌉ := by
  refine ⟨reassemble_chunk chunk_size chunk_overlap hcfg text, ?_⟩
  rw [chunk_length chunk_size chunk_overlap hcfg text hlen]
  rw [nat_ceilDiv_eq_rat_ceil _ _ (by omega)]
  congr 1
  push_cast [Nat.cast_sub hlen.le, Nat.cast_sub hcfg.le]
  ring

/-- An eight-character text used to instantiate the amended chunking claim. -/
def c2Text : List Char := [ 'a', 'b', 'c', 'd', 'e', 'f', 'g', 'h' ]

/-- Witness for C2 (amended): chunking eight characters with chunk_size 4 and
chunk_overlap 2 reassembles exactly and yields ceil(6/2) = 3 windows. -/
theorem chunk_reconstruction_and_count_witness :
    ((2 : Nat) < 4 ∧ (2 : Nat) < c2Text.length) ∧
      (reassemble 2 (chunk 4 2 c2Text) = c2Text ∧
        ((chunk 4 2 c2Text).length : ℤ) =
          ⌈((c2Text.length : ℚ) - ((2 : Nat) : ℚ)) /
            (((4 : Nat) : ℚ) - ((2 : Nat) : ℚ))⌉) :=
  ⟨⟨by decide, by decide⟩,
    chunk_reconstruction_and_count 4 2 c2Text (by decide) (by decide)⟩

/-! ## Upload size limit at the client (src/unnamed/part_001, Dashboard) -/

/-- The dropzone configuration of the Dashboard upload area
(src/unnamed/part_001): maxSize is ten megabytes. -/
def dropzoneMaxSize : Nat := 10 * 1024 * 1024

/-- The documented react-dropzone semantics of the configuration used by the
Dashboard: each dropped file is accepted or rejected on its own, a file
being rejected exactly when its size exceeds maxSize; the accepted files are
passed to onDrop and uploaded.  Files are represented by their sizes in
bytes. -/
def dropzoneAcceptedFiles (maxSize : Nat) (sizes : List Nat) : List Nat :=
  sizes.filter fun sz => sz ≤ maxSize

/-- Total size of an upload batch in bytes. -/
def batchTotalSize (sizes : List Nat) : Nat := sizes.sum

/-- C9: the Dashboard dropzone accepts a batch of two six-megabyte files in
full although the batch total, twelve megabytes, exceeds the ten-megabyte
limit that the adjacent UI text documents as a batch total: the configured
limit applies per file, not to the batch total, so no client-side rejection
of the oversized batch happens. -/
theorem dropzone_accepts_oversized_batch :
    dropzoneAcceptedFiles dropzoneMaxSize [6291456, 6291456] =
        [6291456, 6291456] ∧
      dropzoneMaxSize < batchTotalSize [6291456, 6291456] := by
  constructor
  · rfl
  · decide

/-! ## Public chat client (src/client/src/pages/PublicChat.tsx) -/

/-- Message roles, as in the client Message interface and the spec data
model. -/
inductive Role where
  | user
  | assistant
deriving DecidableEq, Repr

/-- A message held by the public chat client
(src/client/src/pages/PublicChat.tsx, interface Message). -/
structure ClientMessage where
  id : String
  content : String
  role : Role
  timestamp : Nat
deriving DecidableEq, Repr

/-- The client-side state of the public chat page: the entered API key, the
authentication flag, the stored session id, the message list and the error
banner (src/client/src/pages/PublicChat.tsx component state). -/
structure ClientState where
  apiKey : String
  isAuthenticated : Bool
  sessionId : Option String
  messages : List ClientMessage
  clientError : Option String
deriving DecidableEq, Repr

/-- The request body of POST /api/public/chat as the client builds it
(src/client/src/pages/PublicChat.tsx, sendMessage), matching the
PublicChatRequest interface of the api service. -/
structure PublicChatRequest where
  api_key : String
  message : String
  session_id : Option String
deriving DecidableEq, Repr

/-- The response body of POST /api/public/chat as the client consumes it,
matching the PublicChatResponse interface of the api service: exactly the
generated text, the session id, a usage record and a timestamp. -/
structure UsageInfo where
  tokens_used : Nat
  context_chunks : Nat
  processing_time_ms : Nat
deriving DecidableEq, Repr

structure ChatResponseData where
  response : String
  session_id : String
  usage : UsageInfo
  timestamp : Nat
deriving DecidableEq, Repr

/-- Whether a fetch response is ok (status in [200, 300)). -/
def respOk (status : Nat) : Bool :=
  decide (200 ≤ status) && decide (status < 300)

/-- The welcome message content seeded after successful key validation
(src/client/src/pages/PublicChat.tsx, handleApiKeySubmit). -/
def welcomeText : String :=
  "Hello! I\x27m your AI assistant. How can I help you today?"

/-- handleApiKeySubmit from src/client/src/pages/PublicChat.tsx: the POST to
/api/public/test-key returns a status; when it is ok the client marks itself
authenticated, mints the first session id itself with crypto.randomUUID
(the minted argument) and seeds the welcome message; a 401 or any other
failure only sets the error banner. -/
def handleApiKeySubmit (s : ClientState) (status : Nat) (minted : String)
    (now : Nat) : ClientState :=
  if respOk status then
    { s with isAuthenticated := true, sessionId := some minted,
             clientError := none,
             messages := [⟨"welcome", welcomeText, Role.assistant, now⟩] }
  else if status = 401 then
    { s with clientError := some ("Invalid API key. Please check and try again.") }
  else
    { s with clientError := some ("Failed to authenticate. Please try again.") }

/-- The sending half of sendMessage from
src/client/src/pages/PublicChat.tsx: the user message is appended locally
and the chat request is built from the stored key, the input text and the
stored session id. -/
def sendUserMessage (s : ClientState) (inputMessage : String) (now : Nat) :
    ClientState × PublicChatRequest :=
  let msg : ClientMessage := ⟨toString now, inputMessage, Role.user, now⟩
  ({ s with messages := s.messages ++ [msg], clientError := none },
    ⟨s.apiKey, inputMessage, s.sessionId⟩)

/-- The receiving half of sendMessage from
src/client/src/pages/PublicChat.tsx: on an ok response the assistant message
is appended and the stored session id is replaced by the session id the
server returned; 429 and other failures only set the error banner. -/
def receiveChatResponse (s : ClientState) (status : Nat)
    (data : ChatResponseData) (now : Nat) : ClientState :=
  if respOk status then
    let msg : ClientMessage :=
      ⟨toString (now + 1), data.response, Role.assistant, data.timestamp⟩
    { s with messages := s.messages ++ [msg],
             sessionId := some data.session_id,
             clientError := none }
  else if status = 429 then
    { s with clientError := some ("Rate limit exceeded. Please try again later.") }
  else
    { s with clientError := some ("Failed to get response. Please try again.") }

/-- C10: after a successful test-key call the client itself mints the first
session id and the first chat request carries that minted id; after every
successful chat response the stored session id is replaced by the id the
server returned, so the following request carries the server-returned id. -/
theorem client_session_id_flow (s : ClientState) (status status2 : Nat)
    (minted inputMessage inputMessage2 : String) (now now2 now3 now4 : Nat)
    (data : ChatResponseData) (s2 : ClientState)
    (hok : respOk status = true) (hok2 : respOk status2 = true) :
    (handleApiKeySubmit s status minted now).sessionId = some minted ∧
      (sendUserMessage (handleApiKeySubmit s status minted now) inputMessage
          now2).2.session_id = some minted ∧
      (receiveChatResponse s2 status2 data now3).sessionId =
        some data.session_id ∧
      (sendUserMessage (receiveChatResponse s2 status2 data now3)
          inputMessage2 now4).2.session_id = some data.session_id := by
  refine ⟨?_, ?_, ?_, ?_⟩ <;>
    simp [handleApiKeySubmit, sendUserMessage, receiveChatResponse, hok, hok2]

/-- A starting client state used to instantiate C10. -/
def c10Start : ClientState :=
  ⟨"iai_key_1", false, none, [], none⟩

/-- A server chat response used to instantiate C10. -/
def c10Data : ChatResponseData :=
  ⟨"answer text", "server-session-7", ⟨42, 2, 150⟩, 99⟩

/-- Witness for C10: with status 200 responses, the minted id u-1 is stored
and sent in the first request, and the server-returned session id replaces
it afterwards. -/
theorem client_session_id_flow_witness :
    (respOk 200 = true ∧ respOk 200 = true) ∧
      ((handleApiKeySubmit c10Start 200 ("u-1") 5).sessionId = some ("u-1") ∧
        (sendUserMessage (handleApiKeySubmit c10Start 200 ("u-1") 5) ("hi")
            6).2.session_id = some ("u-1") ∧
        (receiveChatResponse c10Start 200 c10Data 7).sessionId =
          some c10Data.session_id ∧
        (sendUserMessage (receiveChatResponse c10Start 200 c10Data 7)
            ("again") 8).2.session_id = some c10Data.session_id) :=
  ⟨⟨by decide, by decide⟩,
    client_session_id_flow c10Start 200 200 ("u-1") ("hi") ("again") 5 6 7 8
      c10Data c10Start (by decide) (by decide)⟩

/-! ## Knowledge Base Registry (spec section 4.2) -/

/-- Modelled from the spec: the Document metadata row kept by the Registry
(spec section 3), reduced to the fields the counter invariant concerns. -/
structure DocRec where
  id : String
  knowledge_base_id : String
  chunk_count : Nat
deriving DecidableEq, Repr

/-- Modelled from the spec: the KnowledgeBase row kept by the Registry,
reduced to the id and the two counters. -/
structure KBRec where
  id : String
  total_documents : Nat
  total_chunks : Nat
deriving DecidableEq, Repr

/-- Modelled from the spec: the Registry state, KB rows plus the rows of
live documents (deletion removes the row). -/
structure RegistryState where
  kbs : List KBRec
  docs : List DocRec
deriving DecidableEq, Repr

/-- The live (non-deleted) documents belonging to a KB among the stored
document rows. -/
def liveDocs (docs : List DocRec) (kb_id : String) : List DocRec :=
  docs.filter fun d => d.knowledge_base_id = kb_id

/-- Sum of chunk_count over a document list. -/
def chunkSum (l : List DocRec) : Nat :=
  (l.map fun d => d.chunk_count).sum

/-- Registry operations that create KBs and record document ingestion and
deletion (spec section 4.2). -/
inductive RegOp where
  | createKB (kb_id : String)
  | recordIngestion (kb_id doc_id : String) (chunk_count : Nat)
  | recordDeletion (kb_id doc_id : String)
deriving DecidableEq, Repr

/-- Counter update applied to a KB row by recordIngestion. -/
def bumpKB (kb_id : String) (n : Nat) (k : KBRec) : KBRec :=
  if k.id = kb_id then ⟨k.id, k.total_documents + 1, k.total_chunks + n⟩
  else k

/-- Counter update applied to a KB row by recordDeletion. -/
def dropKB (kb_id : String) (cc : Nat) (k : KBRec) : KBRec :=
  if k.id = kb_id then ⟨k.id, k.total_documents - 1, k.total_chunks - cc⟩
  else k

/-- Modelled from the spec: applying one Registry operation.  createKB
installs a KB with zero counters under a server-generated fresh id;
recordIngestion stores the document row and raises the owning counters in
the same transaction; recordDeletion removes the document row and lowers
the owning counters in the same transaction.  Server-generated unique ids
are modelled by the freshness guards. -/
def applyRegOp (s : RegistryState) : RegOp → RegistryState
  | RegOp.createKB kb_id =>
      if s.kbs.any fun k => k.id = kb_id then s
      else { s with kbs := ⟨kb_id, 0, 0⟩ :: s.kbs }
  | RegOp.recordIngestion kb_id doc_id n =>
      if (s.kbs.any fun k => k.id = kb_id) &&
          !(s.docs.any fun d => d.id = doc_id) then
        ⟨s.kbs.map (bumpKB kb_id n), ⟨doc_id, kb_id, n⟩ :: s.docs⟩
      else s
  | RegOp.recordDeletion kb_id doc_id =>
      match s.docs.find? fun d =>
          d.id = doc_id && d.knowledge_base_id = kb_id with
      | none => s
      | some d =>
        ⟨s.kbs.map (dropKB kb_id d.chunk_count),
          s.docs.filter fun x => x.id ≠ doc_id⟩

/-- A sequence of Registry operations applied in order. -/
def applyRegOps (ops : List RegOp) (s : RegistryState) : RegistryState :=
  ops.foldl applyRegOp s

/-- The Registry starts empty. -/
def initialRegistry : RegistryState := ⟨[], []⟩

/-- The Registry invariant: document ids are unique, every document belongs
to a registered KB, and the stored counters of every KB equal the live
document count and the live chunk sum. -/
def RegInv (s : RegistryState) : Prop :=
  (s.docs.map fun d => d.id).Nodup ∧
    (∀ d ∈ s.docs, ∃ k ∈ s.kbs, k.id = d.knowledge_base_id) ∧
    ∀ kb ∈ s.kbs, kb.total_documents = (liveDocs s.docs kb.id).length ∧
      kb.total_chunks = chunkSum (liveDocs s.docs kb.id)

theorem liveDocs_cons (dd : DocRec) (docs : List DocRec) (x : String) :
    liveDocs (dd :: docs) x =
      if dd.knowledge_base_id = x then dd :: liveDocs docs x
      else liveDocs docs x := by
  simp [liveDocs, List.filter_cons]

theorem chunkSum_cons (dd : DocRec) (l : List DocRec) :
    chunkSum (dd :: l) = dd.chunk_count + chunkSum l := by
  simp [chunkSum]

theorem bumpKB_id (kb_id : String) (n : Nat) (k : KBRec) :
    (bumpKB kb_id n k).id = k.id := by
  unfold bumpKB
  split <;> rfl

theorem dropKB_id (kb_id : String) (cc : Nat) (k : KBRec) :
    (dropKB kb_id cc k).id = k.id := by
  unfold dropKB
  split <;> rfl

theorem length_eq_sum_one (l : List DocRec) :
    l.length = (l.map fun _ => (1 : Nat)).sum := by
  induction l with
  | nil => rfl
  | cons x t ih =>
    rw [List.length_cons, List.map_cons, List.sum_cons, ih]
    omega

/-- Removing the unique document with a given id from a list changes any
per-KB measure sum by exactly the contribution of that document. -/
theorem filter_remove_measure (f : DocRec → Nat) (doc_id kb_id : String) :
    ∀ (l : List DocRec) (d : DocRec),
      (l.map fun x => x.id).Nodup → d ∈ l → d.id = doc_id →
      ((liveDocs (l.filter fun x => x.id ≠ doc_id) kb_id).map f).sum =
        ((liveDocs l kb_id).map f).sum -
          (if d.knowledge_base_id = kb_id then f d else 0) := by
  intro l
  induction l with
  | nil =>
    intro d _ hd _
    exact absurd hd (List.not_mem_nil d)
  | cons x t ih =>
    intro d hnd hd hid
    rw [List.map_cons, List.nodup_cons] at hnd
    obtain ⟨hx, hndt⟩ := hnd
    simp only [liveDocs] at ih ⊢
    rcases List.mem_cons.mp hd with rfl | hdt
    · have hall : ∀ y ∈ t, ¬(y.id = doc_id) := by
        intro y hy hyid
        exact hx (hid ▸ hyid ▸ List.mem_map_of_mem (fun z => z.id) hy)
      have hfe : (d :: t).filter (fun z => z.id ≠ doc_id) =
          t.filter fun z => z.id ≠ doc_id := by
        rw [List.filter_cons, if_neg]
        simp [hid]
      have hfe2 : t.filter (fun z => z.id ≠ doc_id) = t := by
        rw [List.filter_eq_self]
        intro y hy
        simpa using hall y hy
      rw [hfe, hfe2, List.filter_cons]
      by_cases hdkb : d.knowledge_base_id = kb_id
      · simp only [hdkb, if_pos, decide_True, List.map_cons, List.sum_cons]
        simp
      · simp [hdkb]
    · have hxid : ¬(x.id = doc_id) := by
        intro hxe
        exact hx (hxe ▸ hid ▸ List.mem_map_of_mem (fun z => z.id) hdt)
      have hstep := ih d hndt hdt hid
      have hvle : (if d.knowledge_base_id = kb_id then f d else 0) ≤
          ((t.filter fun z => z.knowledge_base_id = kb_id).map f).sum := by
        split
        · next hdkb =>
          refine List.single_le_sum (fun y _ => Nat.zero_le y) _ ?_
          exact List.mem_map_of_mem f
            (List.mem_filter.mpr ⟨hdt, by simpa using hdkb⟩)
        · exact Nat.zero_le _
      rw [List.filter_cons, if_pos (by simpa using hxid)]
      rw [List.filter_cons]
      rw [List.filter_cons]
      by_cases hxkb : x.knowledge_base_id = kb_id
      · rw [if_pos (by simpa using hxkb), if_pos (by simpa using hxkb)]
        rw [List.map_cons, List.sum_cons, List.map_cons, List.sum_cons, hstep]
        omega
      · rw [if_neg (by simpa using hxkb), if_neg (by simpa using hxkb)]
        exact hstep

/-- The document-count form of filter_remove_measure. -/
theorem filter_remove_length (doc_id kb_id : String) (l : List DocRec)
    (d : DocRec) (hnd : (l.map fun x => x.id).Nodup) (hd : d ∈ l)
    (hid : d.id = doc_id) :
    (liveDocs (l.filter fun x => x.id ≠ doc_id) kb_id).length =
      (liveDocs l kb_id).length -
        (if d.knowledge_base_id = kb_id then 1 else 0) := by
  have h1 := filter_remove_measure (fun _ => 1) doc_id kb_id l d hnd hd hid
  rw [length_eq_sum_one, length_eq_sum_one]
  simpa using h1

/-- One Registry operation preserves the Registry invariant. -/
theorem regInv_applyRegOp (s : RegistryState) (op : RegOp) (h : RegInv s) :
    RegInv (applyRegOp s op) := by
  obtain ⟨hnd, hown, hcnt⟩ := h
  cases op with
  | createKB kb_id =>
    by_cases hex : (s.kbs.any fun k => k.id = kb_id) = true
    · have happ : applyRegOp s (RegOp.createKB kb_id) = s := by
        simp [applyRegOp, hex]
      rw [happ]
      exact ⟨hnd, hown, hcnt⟩
    · have happ : applyRegOp s (RegOp.createKB kb_id) =
          ⟨(⟨kb_id, 0, 0⟩ : KBRec) :: s.kbs, s.docs⟩ := by
        simp [applyRegOp, hex]
      rw [happ]
      refine ⟨hnd, ?_, ?_⟩
      · intro d hdm
        obtain ⟨k, hk, hkid⟩ := hown d hdm
        exact ⟨k, List.mem_cons_of_mem _ hk, hkid⟩
      · intro kb hkb
        rcases List.mem_cons.mp hkb with rfl | hkb2
        · have hnone : liveDocs s.docs kb_id = [] := by
            rw [liveDocs, List.filter_eq_nil_iff]
            intro dd hdd hdk
            rw [decide_eq_true_eq] at hdk
            obtain ⟨k, hk, hkid⟩ := hown dd hdd
            apply hex
            rw [List.any_eq_true]
            exact ⟨k, hk, by rw [decide_eq_true_eq, hkid, hdk]⟩
          exact ⟨by simp [hnone], by simp [hnone, chunkSum]⟩
        · exact hcnt kb hkb2
  | recordIngestion kb_id doc_id n =>
    by_cases hg : ((s.kbs.any fun k => k.id = kb_id) &&
        !(s.docs.any fun d => d.id = doc_id)) = true
    · have happ : applyRegOp s (RegOp.recordIngestion kb_id doc_id n) =
          ⟨s.kbs.map (bumpKB kb_id n),
            (⟨doc_id, kb_id, n⟩ : DocRec) :: s.docs⟩ := by
        simp [applyRegOp, hg]
      rw [happ]
      rw [Bool.and_eq_true, Bool.not_eq_true', List.any_eq_false] at hg
      obtain ⟨hkbex, hfresh⟩ := hg
      refine ⟨?_, ?_, ?_⟩
      · rw [List.map_cons, List.nodup_cons]
        refine ⟨?_, hnd⟩
        intro hmem
        obtain ⟨y, hy, hyid⟩ := List.mem_map.mp hmem
        have hf := hfresh y hy
        simp only [decide_eq_true_eq] at hf
        exact hf (by simpa using hyid)
      · intro d2 hd2
        rcases List.mem_cons.mp hd2 with rfl | hd2m
        · rw [List.any_eq_true] at hkbex
          obtain ⟨k, hk, hkid⟩ := hkbex
          rw [decide_eq_true_eq] at hkid
          refine ⟨bumpKB kb_id n k, List.mem_map_of_mem _ hk, ?_⟩
          rw [bumpKB_id]
          simpa using hkid
        · obtain ⟨k, hk, hkid⟩ := hown d2 hd2m
          exact ⟨bumpKB kb_id n k, List.mem_map_of_mem _ hk,
            by rw [bumpKB_id]; exact hkid⟩
      · intro kb hkb
        obtain ⟨k0, hk0, rfl⟩ := List.mem_map.mp hkb
        obtain ⟨hlen0, hsum0⟩ := hcnt k0 hk0
        by_cases hk0id : k0.id = kb_id
        · have hb : bumpKB kb_id n k0 =
              ⟨k0.id, k0.total_documents + 1, k0.total_chunks + n⟩ := by
            unfold bumpKB
            rw [if_pos hk0id]
          rw [hb]
          dsimp only
          rw [liveDocs_cons,
            if_pos (show (⟨doc_id, kb_id, n⟩ : DocRec).knowledge_base_id = k0.id
              from hk0id.symm)]
          constructor
          · rw [List.length_cons, hlen0]
          · rw [chunkSum_cons, hsum0]
            dsimp only
            omega
        · have hb : bumpKB kb_id n k0 = k0 := by
            unfold bumpKB
            rw [if_neg hk0id]
          rw [hb]
          rw [liveDocs_cons,
            if_neg (show ¬((⟨doc_id, kb_id, n⟩ : DocRec).knowledge_base_id = k0.id)
              from fun hh => hk0id hh.symm)]
          exact ⟨hlen0, hsum0⟩
    · have hgf : ((s.kbs.any fun k => k.id = kb_id) &&
          !(s.docs.any fun d => d.id = doc_id)) = false := by
        simpa using hg
      have happ : applyRegOp s (RegOp.recordIngestion kb_id doc_id n) = s := by
        simp [applyRegOp, hgf]
      rw [happ]
      exact ⟨hnd, hown, hcnt⟩
  | recordDeletion kb_id doc_id =>
    cases hfind : s.docs.find? fun d =>
        d.id = doc_id && d.knowledge_base_id = kb_id with
    | none =>
      have happ : applyRegOp s (RegOp.recordDeletion kb_id doc_id) = s := by
        simp only [applyRegOp, hfind]
      rw [happ]
      exact ⟨hnd, hown, hcnt⟩
    | some d =>
      have happ : applyRegOp s (RegOp.recordDeletion kb_id doc_id) =
          ⟨s.kbs.map (dropKB kb_id d.chunk_count),
            s.docs.filter fun x => x.id ≠ doc_id⟩ := by
        simp only [applyRegOp, hfind]
      rw [happ]
      have hdmem : d ∈ s.docs := List.mem_of_find?_eq_some hfind
      have hdpred := List.find?_some hfind
      rw [Bool.and_eq_true, decide_eq_true_eq, decide_eq_true_eq] at hdpred
      obtain ⟨hdid, hdkb⟩ := hdpred
      refine ⟨?_, ?_, ?_⟩
      · exact hnd.sublist
          ((List.filter_sublist s.docs).map (fun x : DocRec => x.id))
      · intro d2 hd2
        have hd2m : d2 ∈ s.docs := List.mem_of_mem_filter hd2
        obtain ⟨k, hk, hkid⟩ := hown d2 hd2m
        exact ⟨dropKB kb_id d.chunk_count k, List.mem_map_of_mem _ hk,
          by rw [dropKB_id]; exact hkid⟩
      · intro kb hkb
        obtain ⟨k0, hk0, rfl⟩ := List.mem_map.mp hkb
        obtain ⟨hlen0, hsum0⟩ := hcnt k0 hk0
        have hL := filter_remove_length doc_id k0.id s.docs d hnd hdmem hdid
        have hS := filter_remove_measure (fun x => x.chunk_count) doc_id k0.id
          s.docs d hnd hdmem hdid
        simp only [chunkSum] at hsum0 ⊢
        by_cases hk0id : k0.id = kb_id
        · have hdk0 : d.knowledge_base_id = k0.id := by rw [hdkb, hk0id]
          have hb : dropKB kb_id d.chunk_count k0 =
              ⟨k0.id, k0.total_documents - 1,
                k0.total_chunks - d.chunk_count⟩ := by
            unfold dropKB
            rw [if_pos hk0id]
          rw [hb]
          dsimp only
          constructor
          · rw [hL, if_pos hdk0, ← hlen0]
          · rw [hS, if_pos hdk0, ← hsum0]
        · have hdk0 : ¬(d.knowledge_base_id = k0.id) := by
            rw [hdkb]
            exact fun hh => hk0id hh.symm
          have hb : dropKB kb_id d.chunk_count k0 = k0 := by
            unfold dropKB
            rw [if_neg hk0id]
          rw [hb]
          constructor
          · rw [hL, if_neg hdk0, Nat.sub_zero, ← hlen0]
          · rw [hS, if_neg hdk0, Nat.sub_zero, ← hsum0]

/-- Any operation sequence preserves the Registry invariant. -/
theorem regInv_applyRegOps (ops : List RegOp) :
    ∀ s : RegistryState, RegInv s → RegInv (applyRegOps ops s) := by
  induction ops with
  | nil => intro s h; exact h
  | cons op rest ih =>
    intro s h
    exact ih (applyRegOp s op) (regInv_applyRegOp s op h)

/-- The initial Registry satisfies the invariant. -/
theorem regInv_initial : RegInv initialRegistry := by
  refine ⟨List.nodup_nil, ?_, ?_⟩
  · intro d hd
    exact absurd hd (List.not_mem_nil d)
  · intro kb hkb
    exact absurd hkb (List.not_mem_nil kb)

/-- C3: after every sequence of Registry operations starting from the empty
Registry, the total_documents of every KB equals the number of its live
documents and its total_chunks equals the sum of chunk_count over those
live documents. -/
theorem kb_counters_always_correct (ops : List RegOp) (kb : KBRec)
    (h : kb ∈ (applyRegOps ops initialRegistry).kbs) :
    kb.total_documents =
        (liveDocs (applyRegOps ops initialRegistry).docs kb.id).length ∧
      kb.total_chunks =
        chunkSum (liveDocs (applyRegOps ops initialRegistry).docs kb.id) :=
  (regInv_applyRegOps ops initialRegistry regInv_initial).2.2 kb h

/-- The operation sequence of the spec scenario: create the KB, ingest a
twelve-chunk document, then delete it. -/
def c3Ops : List RegOp :=
  [RegOp.createKB ("hr-policies"),
    RegOp.recordIngestion ("hr-policies") ("doc-1") 12,
    RegOp.recordDeletion ("hr-policies") ("doc-1")]

/-- Witness for C3: after create, ingest of twelve chunks, and delete, the
stored counters are zero and match the live documents. -/
theorem kb_counters_always_correct_witness :
    (⟨"hr-policies", 0, 0⟩ : KBRec) ∈ (applyRegOps c3Ops initialRegistry).kbs ∧
      ((0 : Nat) =
          (liveDocs (applyRegOps c3Ops initialRegistry).docs ("hr-policies")).length ∧
        (0 : Nat) =
          chunkSum (liveDocs (applyRegOps c3Ops initialRegistry).docs ("hr-policies"))) :=
  ⟨by decide, kb_counters_always_correct c3Ops ⟨"hr-policies", 0, 0⟩ (by decide)⟩

/-! ## API Key Manager, Chat Session and Admission Control
(spec sections 4.4 and 4.6) -/

/-- Errors surfaced by the public chat pipeline (spec section 7). -/
inductive ChatError where
  | Unauthorized
  | RateLimitExceeded
deriving DecidableEq, Repr

/-- Modelled from the spec: the APIKey row (spec section 3), with the
remaining admission budget of the per-key token bucket (spec section 4.6)
kept alongside. -/
structure APIKeyRec where
  key : String
  knowledge_base_id : String
  name : String
  usage_count : Nat
  last_used : Option Nat
  is_active : Bool
  budget : Nat
deriving DecidableEq, Repr

/-- Modelled from the spec: one message of a chat session. -/
structure MessageRec where
  role : Role
  content : String
  timestamp : Nat
deriving DecidableEq, Repr

/-- Modelled from the spec: a ChatSession row (spec section 3). -/
structure SessionRec where
  session_id : String
  api_key : String
  created_at : Nat
  messages : List MessageRec
deriving DecidableEq, Repr

/-- Modelled from the spec: the state owned by the API Key Manager and the
Chat Session layer. -/
structure ChatState where
  keys : List APIKeyRec
  sessions : List SessionRec
deriving DecidableEq, Repr

/-- The external collaborators of one chat call (spec sections 4.6 and 6):
the language-model generation and its token count, the clock, the processing
time, the freshly minted session id, and the Vector Index Adapter results
with the retrieval configuration. -/
structure ChatEnv where
  gen_text : String
  gen_tokens : Nat
  now : Nat
  elapsed_ms : Nat
  fresh_session_id : String
  indexResults : List QueryResult
  similarity_threshold : ℚ
  max_chunks : Nat
deriving DecidableEq, Repr

/-- Key lookup in the key store. -/
def findKey (s : ChatState) (key : String) : Option APIKeyRec :=
  s.keys.find? fun k => k.key = key

/-- Modelled from the spec: authenticate (spec section 4.4) fails with
Unauthorized when the key does not exist or is_active is false, without
distinguishing the two cases. -/
def authenticate (s : ChatState) (key : String) :
    Except ChatError APIKeyRec :=
  match findKey s key with
  | some k =>
      if k.is_active then Except.ok k else Except.error ChatError.Unauthorized
  | none => Except.error ChatError.Unauthorized

/-- Modelled from the spec: testKey (spec section 4.6) validates the key as
a pure read check and returns the state untouched. -/
def testKey (s : ChatState) (key : String) : Bool × ChatState :=
  (match authenticate s key with
   | Except.ok _ => true
   | Except.error _ => false, s)

/-- Modelled from the spec: issue (spec section 4.4) installs a fresh
cryptographically random key with a full admission budget; randomness is
modelled by the guard that an existing key string is never generated
again. -/
def issue (s : ChatState) (kb_id key key_name : String) (limit : Nat) :
    ChatState :=
  if s.keys.any fun k => k.key = key then s
  else { s with keys := ⟨key, kb_id, key_name, 0, none, true, limit⟩ :: s.keys }

/-- The per-record update of recordUsage: increment usage_count and set
last_used on the matching key. -/
def bumpUsage (key : String) (now : Nat) (k : APIKeyRec) : APIKeyRec :=
  if k.key = key then
    ⟨k.key, k.knowledge_base_id, k.name, k.usage_count + 1, some now,
      k.is_active, k.budget⟩
  else k

/-- The per-record update of a consumed admission token. -/
def spendToken (key : String) (k : APIKeyRec) : APIKeyRec :=
  if k.key = key then
    ⟨k.key, k.knowledge_base_id, k.name, k.usage_count, k.last_used,
      k.is_active, k.budget - 1⟩
  else k

/-- The per-record update of revoke: set is_active to false on the matching
key. -/
def setInactive (key : String) (k : APIKeyRec) : APIKeyRec :=
  if k.key = key then
    ⟨k.key, k.knowledge_base_id, k.name, k.usage_count, k.last_used,
      false, k.budget⟩
  else k

/-- Modelled from the spec: recordUsage (spec section 4.4) increments
usage_count and sets last_used. -/
def recordUsage (s : ChatState) (key : String) (now : Nat) : ChatState :=
  { s with keys := s.keys.map (bumpUsage key now) }

/-- Modelled from the spec: a successful admission consumes one token of the
per-key budget. -/
def consumeBudget (s : ChatState) (key : String) : ChatState :=
  { s with keys := s.keys.map (spendToken key) }

/-- Modelled from the spec: revoke (spec section 4.4) sets is_active to
false and deletes nothing. -/
def revoke (s : ChatState) (key : String) : ChatState :=
  { s with keys := s.keys.map (setInactive key) }

theorem bumpUsage_key (key : String) (now : Nat) (k : APIKeyRec) :
    (bumpUsage key now k).key = k.key := by
  unfold bumpUsage
  split <;> rfl

theorem spendToken_key (key : String) (k : APIKeyRec) :
    (spendToken key k).key = k.key := by
  unfold spendToken
  split <;> rfl

theorem setInactive_key (key : String) (k : APIKeyRec) :
    (setInactive key k).key = k.key := by
  unfold setInactive
  split <;> rfl

/-- Session lookup for an optional session id. -/
def findSession (s : ChatState) (sid : Option String) : Option SessionRec :=
  match sid with
  | none => none
  | some i => s.sessions.find? fun t => t.session_id = i

/-- Modelled from the spec: startOrResume (spec section 4.6) resumes a known
session and otherwise mints a new session id with an empty history. -/
def resolveSession (env : ChatEnv) (s : ChatState) (key : String)
    (sid : Option String) : SessionRec :=
  match findSession s sid with
  | some t => t
  | none => ⟨env.fresh_session_id, key, env.now, []⟩

/-- The user message and the assistant message appended by a successful chat
call. -/
def appendMessages (sess : SessionRec) (message gen_text : String)
    (now : Nat) : SessionRec :=
  ⟨sess.session_id, sess.api_key, sess.created_at,
    sess.messages ++ [⟨Role.user, message, now⟩,
      ⟨Role.assistant, gen_text, now⟩]⟩

/-- Store the updated session: replace the resumed session in place, or
prepend the newly minted one. -/
def storeSession (s : ChatState) (sid : Option String) (sess : SessionRec) :
    ChatState :=
  if (findSession s sid).isSome then
    { s with sessions := s.sessions.map fun t =>
        if t.session_id = sess.session_id then sess else t }
  else { s with sessions := sess :: s.sessions }

/-- Modelled from the spec: chat (spec section 4.6): authenticate, admission
check (failing with RateLimitExceeded without consuming budget), session
resolution, retrieval, language-model call, message append, usage recording
and response assembly. -/
def chat (env : ChatEnv) (s : ChatState) (key message : String)
    (session_id : Option String) :
    Except ChatError ChatResponseData × ChatState :=
  match authenticate s key with
  | Except.error e => (Except.error e, s)
  | Except.ok krec =>
    if krec.budget = 0 then (Except.error ChatError.RateLimitExceeded, s)
    else
      (Except.ok ⟨env.gen_text,
          (resolveSession env s key session_id).session_id,
          ⟨env.gen_tokens,
            (retrieve env.indexResults env.similarity_threshold
              env.max_chunks).length,
            env.elapsed_ms⟩,
          env.now⟩,
        consumeBudget
          (recordUsage
            (storeSession s session_id
              (appendMessages (resolveSession env s key session_id) message
                env.gen_text env.now))
            key env.now)
          key)

/-- The operations of the API Key Manager and chat interface. -/
inductive KMOp where
  | issueOp (kb_id key key_name : String) (limit : Nat)
  | revokeOp (key : String)
  | testKeyOp (key : String)
  | chatOp (env : ChatEnv) (key message : String) (session_id : Option String)
deriving DecidableEq, Repr

/-- Applying one interface operation to the state. -/
def applyKMOp (s : ChatState) : KMOp → ChatState
  | KMOp.issueOp kb key nm limit => issue s kb key nm limit
  | KMOp.revokeOp key => revoke s key
  | KMOp.testKeyOp key => (testKey s key).2
  | KMOp.chatOp env key msg sid => (chat env s key msg sid).2

/-- Applying a sequence of interface operations. -/
def applyKMOps (ops : List KMOp) (s : ChatState) : ChatState :=
  ops.foldl applyKMOp s

theorem storeSession_keys (s : ChatState) (sid : Option String)
    (sess : SessionRec) : (storeSession s sid sess).keys = s.keys := by
  unfold storeSession
  split <;> rfl

/-- Key lookup commutes with a key-preserving update map. -/
theorem findKey_mapKeys (l : List APIKeyRec) (key : String)
    (f : APIKeyRec → APIKeyRec) (hf : ∀ k, (f k).key = k.key) :
    (l.map f).find? (fun k => k.key = key) =
      (l.find? fun k => k.key = key).map f := by
  rw [List.find?_map]
  have hpred : ((fun k : APIKeyRec => decide (k.key = key)) ∘ f) =
      fun k : APIKeyRec => decide (k.key = key) := by
    funext k
    simp [Function.comp, hf]
  rw [hpred]

/-- C5: testKey leaves the whole state unchanged: same key records (so no
usage_count mutation and no last_used update) and same sessions (so no
session creation), whether the key is valid or not. -/
theorem testKey_pure (s : ChatState) (key : String) :
    (testKey s key).2 = s ∧ ((testKey s key).2).keys = s.keys ∧
      ((testKey s key).2).sessions = s.sessions :=
  ⟨rfl, rfl, rfl⟩

/-- C7: with the admission budget exhausted on an otherwise valid key, chat
fails with RateLimitExceeded and returns the state unchanged: the budget is
not consumed, the key usage_count is untouched, and every other key record
is untouched as well. -/
theorem chat_rate_limited_no_effect (env : ChatEnv) (s : ChatState)
    (key message : String) (sid : Option String) (kr : APIKeyRec)
    (h1 : findKey s key = some kr) (h2 : kr.is_active = true)
    (h3 : kr.budget = 0) :
    chat env s key message sid =
      (Except.error ChatError.RateLimitExceeded, s) := by
  have hauth : authenticate s key = Except.ok kr := by
    simp [authenticate, h1, h2]
  simp [chat, hauth, h3]

def c7Key : APIKeyRec := ⟨"iai_k1", "kb1", "kb1 key", 7, none, true, 0⟩

def c7Other : APIKeyRec := ⟨"iai_k2", "kb2", "kb2 key", 3, none, true, 5⟩

def c7State : ChatState := ⟨[c7Key, c7Other], []⟩

def c7Env : ChatEnv := ⟨"generated answer", 11, 1000, 42, "sess-1", [], 1, 3⟩

/-- Witness for C7: a chat on the exhausted key iai_k1 is rejected with
RateLimitExceeded and the state, including the co-existing key iai_k2, is
returned unchanged. -/
theorem chat_rate_limited_no_effect_witness :
    (findKey c7State ("iai_k1") = some c7Key ∧ c7Key.is_active = true ∧
        c7Key.budget = 0) ∧
      chat c7Env c7State ("iai_k1") ("hello") none =
        (Except.error ChatError.RateLimitExceeded, c7State) :=
  ⟨⟨by decide, by decide, by decide⟩,
    chat_rate_limited_no_effect c7Env c7State ("iai_k1") ("hello") none c7Key
      (by decide) (by decide) (by decide)⟩

/-- A revoked key record survives any single interface operation
unchanged. -/
theorem findKey_applyKMOp_inactive (s : ChatState) (key : String)
    (kr : APIKeyRec) (h1 : findKey s key = some kr)
    (h2 : kr.is_active = false) (op : KMOp) :
    findKey (applyKMOp s op) key = some kr := by
  have hkey : kr.key = key := by
    have hp := List.find?_some h1
    rwa [decide_eq_true_eq] at hp
  have hmem : kr ∈ s.keys := List.mem_of_find?_eq_some h1
  cases op with
  | issueOp kb k2 nm limit =>
    simp only [applyKMOp]
    unfold issue
    by_cases hex : (s.keys.any fun k => k.key = k2) = true
    · rw [if_pos hex]
      exact h1
    · rw [if_neg hex]
      have hk2 : ¬(k2 = key) := by
        intro he
        apply hex
        rw [List.any_eq_true]
        exact ⟨kr, hmem, by rw [decide_eq_true_eq, hkey, he]⟩
      unfold findKey
      rw [List.find?_cons_of_neg]
      · exact h1
      · simp only [decide_eq_true_eq]
        intro hh
        apply hk2
        simpa using hh
  | revokeOp k2 =>
    simp only [applyKMOp]
    unfold revoke findKey
    rw [findKey_mapKeys s.keys key (setInactive k2) (setInactive_key k2)]
    unfold findKey at h1
    rw [h1, Option.map_some']
    unfold setInactive
    by_cases hk : kr.key = k2
    · rw [if_pos hk]
      rw [← h2]
    · rw [if_neg hk]
  | testKeyOp k2 =>
    exact h1
  | chatOp env k2 msg sid =>
    simp only [applyKMOp]
    cases hauth : authenticate s k2 with
    | error e =>
      rw [show chat env s k2 msg sid = (Except.error e, s) from by
        simp [chat, hauth]]
      exact h1
    | ok krec =>
      by_cases hb : krec.budget = 0
      · rw [show chat env s k2 msg sid =
            (Except.error ChatError.RateLimitExceeded, s) from by
          simp [chat, hauth, hb]]
        exact h1
      · have hk2 : ¬(k2 = key) := by
          intro he
          subst he
          unfold authenticate at hauth
          rw [h1] at hauth
          simp [h2] at hauth
        have hkrk2 : ¬(kr.key = k2) := by
          rw [hkey]
          exact fun hh => hk2 hh.symm
        rw [show (chat env s k2 msg sid).2 =
            consumeBudget
              (recordUsage
                (storeSession s sid
                  (appendMessages (resolveSession env s k2 sid) msg
                    env.gen_text env.now))
                k2 env.now)
              k2 from by simp [chat, hauth, hb]]
        unfold consumeBudget recordUsage findKey
        dsimp only
        rw [storeSession_keys]
        rw [findKey_mapKeys _ key (spendToken k2) (spendToken_key k2)]
        rw [findKey_mapKeys s.keys key (bumpUsage k2 env.now)
          (bumpUsage_key k2 env.now)]
        unfold findKey at h1
        rw [h1, Option.map_some', Option.map_some']
        unfold bumpUsage spendToken
        rw [if_neg hkrk2]
        rw [if_neg hkrk2]

/-- C6: once a key is revoked, its record survives every later sequence of
interface operations unchanged (in particular usage_count never moves),
every later authenticate fails with Unauthorized, and a chat attempt with
the key leaves the state unchanged: a failed authentication increments no
usage_count. -/
theorem revoked_key_stays_revoked (s : ChatState) (key : String)
    (kr : APIKeyRec) (ops : List KMOp) (env : ChatEnv) (message : String)
    (sid : Option String) (h1 : findKey s key = some kr)
    (h2 : kr.is_active = false) :
    findKey (applyKMOps ops s) key = some kr ∧
      authenticate (applyKMOps ops s) key =
        Except.error ChatError.Unauthorized ∧
      (chat env (applyKMOps ops s) key message sid).2 = applyKMOps ops s := by
  have hmain : ∀ (ops2 : List KMOp) (t : ChatState),
      findKey t key = some kr → findKey (applyKMOps ops2 t) key = some kr := by
    intro ops2
    induction ops2 with
    | nil => intro t h; exact h
    | cons op rest ih =>
      intro t h
      exact ih (applyKMOp t op) (findKey_applyKMOp_inactive t key kr h h2 op)
  have hfin := hmain ops s h1
  have hauth : authenticate (applyKMOps ops s) key =
      Except.error ChatError.Unauthorized := by
    unfold authenticate
    rw [hfin]
    simp [h2]
  refine ⟨hfin, hauth, ?_⟩
  simp [chat, hauth]

def c6Key : APIKeyRec := ⟨"iai_k1", "kb1", "kb1 key", 7, some 3, false, 5⟩

def c6Live : APIKeyRec := ⟨"iai_k2", "kb2", "kb2 key", 0, none, true, 9⟩

def c6State : ChatState := ⟨[c6Key, c6Live], []⟩

def c6Env : ChatEnv := ⟨"generated answer", 5, 50, 20, "sess-9", [], 1, 3⟩

def c6Ops : List KMOp :=
  [KMOp.issueOp ("kb3") ("iai_k1") ("reissue attempt") 9,
    KMOp.chatOp c6Env ("iai_k1") ("hi") none,
    KMOp.revokeOp ("iai_k1"),
    KMOp.chatOp c6Env ("iai_k2") ("hi") none,
    KMOp.testKeyOp ("iai_k1")]

/-- Witness for C6: after a re-issue attempt under the same key string, chat
attempts on the revoked and on a live key, a repeated revoke and a testKey,
the revoked record is unchanged and authentication still fails. -/
theorem revoked_key_stays_revoked_witness :
    (findKey c6State ("iai_k1") = some c6Key ∧ c6Key.is_active = false) ∧
      (findKey (applyKMOps c6Ops c6State) ("iai_k1") = some c6Key ∧
        authenticate (applyKMOps c6Ops c6State) ("iai_k1") =
          Except.error ChatError.Unauthorized ∧
        (chat c6Env (applyKMOps c6Ops c6State) ("iai_k1") ("hi") none).2 =
          applyKMOps c6Ops c6State) :=
  ⟨⟨by decide, by decide⟩,
    revoked_key_stays_revoked c6State ("iai_k1") c6Key c6Ops c6Env ("hi") none
      (by decide) (by decide)⟩

/-- C4: every successful chat call returns exactly the record assembling the
generated text, the session id of the resolved-or-created session, the usage
record of tokens used, context chunk count and processing time, and the
timestamp. -/
theorem chat_success_response_shape (env : ChatEnv) (s : ChatState)
    (key message : String) (sid : Option String) (resp : ChatResponseData)
    (s2 : ChatState) (h : chat env s key message sid = (Except.ok resp, s2)) :
    resp = ⟨env.gen_text, (resolveSession env s key sid).session_id,
      ⟨env.gen_tokens,
        (retrieve env.indexResults env.similarity_threshold
          env.max_chunks).length,
        env.elapsed_ms⟩,
      env.now⟩ := by
  cases hauth : authenticate s key with
  | error e =>
    rw [show chat env s key message sid = (Except.error e, s) from by
      simp [chat, hauth]] at h
    rw [Prod.mk.injEq] at h
    exact absurd h.1 (by simp)
  | ok krec =>
    by_cases hb : krec.budget = 0
    · rw [show chat env s key message sid =
          (Except.error ChatError.RateLimitExceeded, s) from by
        simp [chat, hauth, hb]] at h
      rw [Prod.mk.injEq] at h
      exact absurd h.1 (by simp)
    · simp only [chat, hauth, hb, if_false] at h
      rw [Prod.mk.injEq] at h
      obtain ⟨hr, _⟩ := h
      rw [Except.ok.injEq] at hr
      exact hr.symm

def c4Key : APIKeyRec := ⟨"iai_k1", "kb1", "kb1 key", 0, none, true, 5⟩

def c4State : ChatState := ⟨[c4Key], []⟩

def c4Env : ChatEnv := ⟨"grounded answer", 7, 100, 250, "sess-1", [], 1, 3⟩

def c4Resp : ChatResponseData :=
  ⟨"grounded answer", "sess-1", ⟨7, 0, 250⟩, 100⟩

def c4Final : ChatState :=
  ⟨[⟨"iai_k1", "kb1", "kb1 key", 1, some 100, true, 4⟩],
    [⟨"sess-1", "iai_k1", 100,
      [⟨Role.user, "hi", 100⟩, ⟨Role.assistant, "grounded answer", 100⟩]⟩]⟩

/-- Witness for C4: a concrete successful chat call returns exactly the
assembled record. -/
theorem chat_success_response_shape_witness :
    chat c4Env c4State ("iai_k1") ("hi") none = (Except.ok c4Resp, c4Final) ∧
      c4Resp = ⟨c4Env.gen_text,
        (resolveSession c4Env c4State ("iai_k1") none).session_id,
        ⟨c4Env.gen_tokens,
          (retrieve c4Env.indexResults c4Env.similarity_threshold
            c4Env.max_chunks).length,
          c4Env.elapsed_ms⟩,
        c4Env.now⟩ :=
  ⟨by rfl,
    chat_success_response_shape c4Env c4State ("iai_k1") ("hi") none c4Resp
      c4Final (by rfl)⟩

end InstantAI
